import Mathlib

/-!
Shallow embedding of `src/sketch.js` (ripple grid with multi-touch knob).

JavaScript numbers are modelled as exact rationals (`ℚ`): every value the
program manipulates (clock readings, pointer coordinates, timing parameters)
is a rational, and all arithmetic in the source is field arithmetic plus
`Math.floor` / `Math.ceil` and the `%` operator.  The single irrational
quantity in the program is the Euclidean distance computed by p5's `dist`
inside the wave hit test; that comparison is modelled exactly over `ℝ`
(`Real.sqrt`), together with a proved `Decidable` instance obtained by
squaring, so the whole simulation stays executable.

Screen layout (tile centres, `maxReachDist`) and the shape cache (square,
circle, triangle vertex tables) are external collaborators of the core and
enter the model as parameters of a `Config`; likewise the numeric value of
the knob's pinch distance (a p5 `dist` call whose exact float value never
influences any claim, only its variation) is a `Config` parameter.
-/

namespace RippleGrid

/-- Grid column count (`COLS = 6`). -/
def COLS : ℕ := 6

/-- Grid row count (`ROWS = 8`). -/
def ROWS : ℕ := 8

/-- Number of resampled vertices per silhouette (`N = 120`). -/
def N : ℕ := 120

/-- Fixed morph (transition) duration in ms (`HALF_MS = 300`). -/
def HALF_MS : ℚ := 300

/-- Lower bound of the tunable dwell time (`HOLD_MIN = 30`). -/
def HOLD_MIN : ℚ := 30

/-- Upper bound of the tunable dwell time (`HOLD_MAX = 3000`). -/
def HOLD_MAX : ℚ := 3000

/-- Long-press detection threshold in ms (`LONGPRESS_MS = 350`). -/
def LONGPRESS_MS : ℚ := 350

/-- Wave front expansion speed (`WAVE_SPEED_PX_PER_MS = 0.8`). -/
def WAVE_SPEED_PX_PER_MS : ℚ := 0.8

/-- Half-width of the annulus in which a wave activates a point
(`ACTIVATION_BAND = 40`). -/
def ACTIVATION_BAND : ℚ := 40

/-- Minimum logical time between two emitter spawns while long-pressing
(`EMIT_INTERVAL_MS = 40`). -/
def EMIT_INTERVAL_MS : ℚ := 40

/-- Capacity of the emitter collection (`MAX_EMITTERS = 800`). -/
def MAX_EMITTERS : ℕ := 800

/-- Pinch sensitivity: ms of `HOLD_MS` per pixel of pinch-distance change
(`KNOB_SENSITIVITY = 3.0`). -/
def KNOB_SENSITIVITY : ℚ := 3

/-- Derived segment length `SEG_MS = HALF_MS + HOLD_MS`, recomputed from the
current `HOLD_MS` on every frame. -/
def SEG_MS (holdMs : ℚ) : ℚ := HALF_MS + holdMs

/-- Derived cycle length `CYCLE_MS = 3 * SEG_MS`. -/
def CYCLE_MS (holdMs : ℚ) : ℚ := 3 * SEG_MS holdMs

/-- p5 `lerp(start, stop, amt) = amt * (stop - start) + start`. -/
def lerp (a b t : ℚ) : ℚ := t * (b - a) + a

/-- p5 `constrain(n, low, high) = max(min(n, high), low)`. -/
def constrain (n low high : ℚ) : ℚ := max (min n high) low

/-- Truncation toward zero, the rounding used by JavaScript's `%` operator. -/
def jsTrunc (q : ℚ) : ℤ := if q < 0 then ⌈q⌉ else ⌊q⌋

/-- JavaScript's `%` (floating-point remainder): `a - b * trunc(a / b)`.
The source only evaluates it with a positive divisor (`CYCLE_MS > 0`). -/
def jsMod (a b : ℚ) : ℚ := a - b * jsTrunc (a / b)

/-- Easing curve from the source:
`easeInOutCubic(x) = x < 0.5 ? 4 x³ : 1 - (-2x+2)³ / 2`. -/
def easeInOutCubic (x : ℚ) : ℚ :=
  if x < 0.5 then 4 * x * x * x else 1 - (-2 * x + 2) ^ 3 / 2

/-- A wave source `{t0, x, y}` pushed by `spawnEmitter`. -/
structure Emitter where
  t0 : ℚ
  x : ℚ
  y : ℚ
  deriving DecidableEq

/-- Euclidean distance of p5's `dist(px, py, qx, qy)`, on exact rational
coordinates, valued in `ℝ`. -/
noncomputable def distR (px py qx qy : ℚ) : ℝ :=
  Real.sqrt (((px : ℝ) - (qx : ℝ)) ^ 2 + ((py : ℝ) - (qy : ℝ)) ^ 2)

/-- Loop body of `hitByAnyEmitter` for one emitter `e`: the `age < 0`
`continue` plus the annulus test `|dist(p, origin) - age * WAVE_SPEED| ≤
ACTIVATION_BAND`. -/
def hitOne (now px py : ℚ) (e : Emitter) : Prop :=
  0 ≤ now - e.t0 ∧
    |distR px py e.x e.y - (((now - e.t0) * WAVE_SPEED_PX_PER_MS : ℚ) : ℝ)| ≤
      ((ACTIVATION_BAND : ℚ) : ℝ)

/-- The annulus test is decidable: squaring the distance comparison turns it
into rational arithmetic. -/
instance instDecidableHitOne (now px py : ℚ) (e : Emitter) :
    Decidable (hitOne now px py e) :=
  decidable_of_iff
    (0 ≤ now - e.t0 ∧
      (((now - e.t0) * WAVE_SPEED_PX_PER_MS - ACTIVATION_BAND ≤ 0 ∨
          ((now - e.t0) * WAVE_SPEED_PX_PER_MS - ACTIVATION_BAND) ^ 2 ≤
            (px - e.x) ^ 2 + (py - e.y) ^ 2) ∧
        (px - e.x) ^ 2 + (py - e.y) ^ 2 ≤
          ((now - e.t0) * WAVE_SPEED_PX_PER_MS + ACTIVATION_BAND) ^ 2))
    (by
      unfold hitOne distR
      apply and_congr_right
      intro ha
      have hsq : (((px - e.x) ^ 2 + (py - e.y) ^ 2 : ℚ) : ℝ) =
          ((px : ℝ) - (e.x : ℝ)) ^ 2 + ((py : ℝ) - (e.y : ℝ)) ^ 2 := by
        push_cast; ring
      have haR : (0 : ℝ) ≤ (now : ℝ) - (e.t0 : ℝ) := by exact_mod_cast ha
      have hWR : (0 : ℝ) ≤ (WAVE_SPEED_PX_PER_MS : ℝ) := by
        norm_num [WAVE_SPEED_PX_PER_MS]
      have hBR : (0 : ℝ) ≤ (ACTIVATION_BAND : ℝ) := by
        norm_num [ACTIVATION_BAND]
      have hd0 : (0 : ℝ) ≤
          Real.sqrt (((px : ℝ) - (e.x : ℝ)) ^ 2 + ((py : ℝ) - (e.y : ℝ)) ^ 2) :=
        Real.sqrt_nonneg _
      have hup : Real.sqrt (((px : ℝ) - (e.x : ℝ)) ^ 2 + ((py : ℝ) - (e.y : ℝ)) ^ 2) ≤
            ((now : ℝ) - (e.t0 : ℝ)) * (WAVE_SPEED_PX_PER_MS : ℝ) + (ACTIVATION_BAND : ℝ) ↔
          (px - e.x) ^ 2 + (py - e.y) ^ 2 ≤
            ((now - e.t0) * WAVE_SPEED_PX_PER_MS + ACTIVATION_BAND) ^ 2 := by
        have hy : (0 : ℝ) ≤
            ((now : ℝ) - (e.t0 : ℝ)) * (WAVE_SPEED_PX_PER_MS : ℝ) + (ACTIVATION_BAND : ℝ) :=
          add_nonneg (mul_nonneg haR hWR) hBR
        rw [Real.sqrt_le_left hy, ← hsq]
        constructor
        · intro h; exact_mod_cast h
        · intro h; exact_mod_cast h
      have hlowiff : ((now : ℝ) - (e.t0 : ℝ)) * (WAVE_SPEED_PX_PER_MS : ℝ) -
            (ACTIVATION_BAND : ℝ) ≤
            Real.sqrt (((px : ℝ) - (e.x : ℝ)) ^ 2 + ((py : ℝ) - (e.y : ℝ)) ^ 2) ↔
          ((now - e.t0) * WAVE_SPEED_PX_PER_MS - ACTIVATION_BAND ≤ 0 ∨
            ((now - e.t0) * WAVE_SPEED_PX_PER_MS - ACTIVATION_BAND) ^ 2 ≤
              (px - e.x) ^ 2 + (py - e.y) ^ 2) := by
        by_cases hneg : (now - e.t0) * WAVE_SPEED_PX_PER_MS - ACTIVATION_BAND ≤ 0
        · constructor
          · intro _; exact Or.inl hneg
          · intro _
            have h1 : ((now : ℝ) - (e.t0 : ℝ)) * (WAVE_SPEED_PX_PER_MS : ℝ) -
                (ACTIVATION_BAND : ℝ) ≤ 0 := by exact_mod_cast hneg
            linarith
        · push_neg at hneg
          have hpos : (0 : ℝ) < ((now : ℝ) - (e.t0 : ℝ)) * (WAVE_SPEED_PX_PER_MS : ℝ) -
              (ACTIVATION_BAND : ℝ) := by exact_mod_cast hneg
          constructor
          · intro h
            right
            have h3 := (Real.le_sqrt' hpos).mp h
            rw [← hsq] at h3
            exact_mod_cast h3
          · rintro (h | h)
            · exact absurd h (not_le.mpr hneg)
            · have h3 : (((now : ℝ) - (e.t0 : ℝ)) * (WAVE_SPEED_PX_PER_MS : ℝ) -
                  (ACTIVATION_BAND : ℝ)) ^ 2 ≤
                  (((px - e.x) ^ 2 + (py - e.y) ^ 2 : ℚ) : ℝ) := by exact_mod_cast h
              rw [hsq] at h3
              exact (Real.le_sqrt' hpos).mpr h3
      rw [abs_le]
      push_cast
      constructor
      · rintro ⟨h1, h2⟩
        refine ⟨?_, ?_⟩
        · have h3 := hlowiff.mpr h1
          linarith
        · have h3 := hup.mpr h2
          linarith
      · rintro ⟨h1, h2⟩
        exact ⟨hlowiff.mp (by linarith), hup.mp (by linarith)⟩)

/-- Source `hitByAnyEmitter(now, px, py)`: scans the emitter list from the
newest to the oldest and returns true as soon as one emitter's annulus covers
the point. -/
def hitByAnyEmitter (now px py : ℚ) (emitters : List Emitter) : Bool :=
  emitters.reverse.any fun e => decide (hitOne now px py e)

/-- Source `pruneEmitters(now)`: find the index of the first (oldest-first)
emitter whose ring is still within `maxReachDist` (the whole length if none
is), then drop everything before it. -/
def pruneEmitters (maxReachDist now : ℚ) (emitters : List Emitter) :
    List Emitter :=
  let cut := emitters.findIdx fun e =>
    decide ((now - e.t0) * WAVE_SPEED_PX_PER_MS < maxReachDist)
  emitters.drop cut

/-- Environment of the core simulation: the pieces the spec declares external
collaborators.  `tileCenter` and `maxReachDist` come from the screen layout
(`computeGridLayout` and `tileCenter` in the source), `sqr`/`cir`/`tri` and
`sScale` from the shape cache, and `dist` is the pinch-distance measurement
used by the knob (p5's Euclidean `dist`; only its variation, never its
specific value, matters to any property proved here). -/
structure Config where
  tileCenter : Fin ROWS → Fin COLS → ℚ × ℚ
  maxReachDist : ℚ
  dist : ℚ × ℚ → ℚ × ℚ → ℚ
  sqr : Fin N → ℚ × ℚ
  cir : Fin N → ℚ × ℚ
  tri : Fin N → ℚ × ℚ
  sScale : ℚ

/-- The sketch's mutable globals. -/
structure SimState where
  holdMs : ℚ
  startMs : Fin ROWS → Fin COLS → ℚ
  stopAtMs : Fin ROWS → Fin COLS → ℚ
  emitters : List Emitter
  lastEmitMs : ℚ
  isPointerDown : Bool
  isLongPress : Bool
  lastPointer : ℚ × ℚ
  logicalNow : ℚ
  lastReal : ℚ
  clockPaused : Bool
  downAtMs : ℚ
  knobActive : Bool
  knobCenter : ℚ × ℚ
  knobBaseDist : ℚ
  knobLastDist : ℚ
  knobAngle : ℚ
  knobEnteredAt : ℚ

/-- State after `setup()`: `initStates()` fills both grids with `-1`, the
emitter list is empty and the logical clock starts at zero. -/
def initState : SimState where
  holdMs := 1500
  startMs := fun _ _ => -1
  stopAtMs := fun _ _ => -1
  emitters := []
  lastEmitMs := 0
  isPointerDown := false
  isLongPress := false
  lastPointer := (0, 0)
  logicalNow := 0
  lastReal := 0
  clockPaused := false
  downAtMs := 0
  knobActive := false
  knobCenter := (0, 0)
  knobBaseDist := 0
  knobLastDist := 0
  knobAngle := 0
  knobEnteredAt := 0

/-- Source `resetForNewGesture()`: refill both grids with `-1`, clear the
emitter list, zero `lastEmitMs`. -/
def resetForNewGesture (s : SimState) : SimState :=
  { s with
    startMs := fun _ _ => -1
    stopAtMs := fun _ _ => -1
    emitters := []
    lastEmitMs := 0 }

/-- Source `updateClock()`: measure the wall delta since the previous frame,
add it to `logicalNow` unless the clock is paused, and always refresh
`lastReal`. -/
def updateClock (realNow : ℚ) (s : SimState) : SimState :=
  let dt := realNow - s.lastReal
  let s1 := if s.clockPaused then s else { s with logicalNow := s.logicalNow + dt }
  { s1 with lastReal := realNow }

/-- Source `spawnEmitter(t, x, y)`: push `{t0 := t, x, y}`, remember `t` as
the last emission time, and drop from the front if over `MAX_EMITTERS`. -/
def spawnEmitter (t x y : ℚ) (s : SimState) : SimState :=
  let es := s.emitters ++ [⟨t, x, y⟩]
  { s with
    emitters :=
      if MAX_EMITTERS < es.length then es.drop (es.length - MAX_EMITTERS) else es
    lastEmitMs := t }

/-- Source `simulateEmittersAndActivations()`: long-press detection (reset
grid and emitters, then spawn once at the pointer), periodic emission while
long-pressing, then pruning. -/
def simulateEmittersAndActivations (cfg : Config) (s : SimState) : SimState :=
  let s1 :=
    if s.isPointerDown && !s.isLongPress &&
        decide (LONGPRESS_MS ≤ s.logicalNow - s.downAtMs) then
      spawnEmitter s.logicalNow s.lastPointer.1 s.lastPointer.2
        (resetForNewGesture { s with isLongPress := true })
    else s
  let s2 :=
    if s1.isLongPress && decide (EMIT_INTERVAL_MS ≤ s1.logicalNow - s1.lastEmitMs) then
      spawnEmitter s1.logicalNow s1.lastPointer.1 s1.lastPointer.2 s1
    else s1
  { s2 with emitters := pruneEmitters cfg.maxReachDist s2.logicalNow s2.emitters }

/-- Source `drawShape(xs, ys)`: the vertex stream `(xs[i]*sScale, ys[i]*sScale)`. -/
def drawShape (pts : Fin N → ℚ × ℚ) (scale : ℚ) : List (ℚ × ℚ) :=
  List.ofFn fun i : Fin N => ((pts i).1 * scale, (pts i).2 * scale)

/-- Source `drawLoopCycle(elapsedMs, scale)`: position in the cycle, stage
selection, eased interpolation factor (clamped to 1 during the dwell), and
the interpolated vertex stream. -/
def drawLoopCycle (cfg : Config) (holdMs elapsedMs scale : ℚ) : List (ℚ × ℚ) :=
  let p := jsMod elapsedMs (CYCLE_MS holdMs)
  let stage : ℤ := ⌊p / SEG_MS holdMs⌋
  let pin := p - stage * SEG_MS holdMs
  let k := if pin < HALF_MS then easeInOutCubic (pin / HALF_MS) else 1
  let ab :=
    if stage = 0 then (cfg.sqr, cfg.cir)
    else if stage = 1 then (cfg.cir, cfg.tri)
    else (cfg.tri, cfg.sqr)
  List.ofFn fun i : Fin N =>
    (lerp (ab.1 i).1 (ab.2 i).1 k * scale, lerp (ab.1 i).2 (ab.2 i).2 k * scale)

/-- Result of one tile's pass through the body of `renderGrid`'s double loop:
the tile's two updated cells plus the vertex stream it draws. -/
structure TileRes where
  newStart : ℚ
  newStop : ℚ
  verts : List (ℚ × ℚ)

/-- Body of `renderGrid`'s double loop for one tile: trigger check against
the emitter field, then the rest/loop/stop drawing logic with the
post-release `stopAtMs` computation `t0 + ceil(elapsed / CYCLE_MS) * CYCLE_MS`. -/
def renderTileStep (cfg : Config) (emitters : List Emitter) (now holdMs : ℚ)
    (isLP : Bool) (cx cy t0 tStop : ℚ) : TileRes :=
  let st :=
    if isLP && decide (t0 < 0) && hitByAnyEmitter now cx cy emitters then
      (now, (-1 : ℚ))
    else (t0, tStop)
  let t1 := st.1
  let ts1 := st.2
  if t1 = -1 ∨ t1 = -2 then ⟨t1, ts1, drawShape cfg.sqr cfg.sScale⟩
  else
    let elapsed := now - t1
    if isLP then ⟨t1, ts1, drawLoopCycle cfg holdMs elapsed cfg.sScale⟩
    else
      let ts2 :=
        if ts1 = -1 then
          t1 + (⌈elapsed / CYCLE_MS holdMs⌉ : ℤ) * CYCLE_MS holdMs
        else ts1
      if ts2 ≤ now then ⟨-2, ts2, drawShape cfg.sqr cfg.sScale⟩
      else ⟨t1, ts2, drawLoopCycle cfg holdMs elapsed cfg.sScale⟩

/-- Source `renderGrid()`: apply `renderTileStep` to every cell (the tiles
read and write only their own cells, so the double loop is a pointwise map). -/
def renderGridState (cfg : Config) (s : SimState) : SimState :=
  { s with
    startMs := fun iy ix =>
      (renderTileStep cfg s.emitters s.logicalNow s.holdMs s.isLongPress
        (cfg.tileCenter iy ix).1 (cfg.tileCenter iy ix).2
        (s.startMs iy ix) (s.stopAtMs iy ix)).newStart
    stopAtMs := fun iy ix =>
      (renderTileStep cfg s.emitters s.logicalNow s.holdMs s.isLongPress
        (cfg.tileCenter iy ix).1 (cfg.tileCenter iy ix).2
        (s.startMs iy ix) (s.stopAtMs iy ix)).newStop }

/-- State reached inside `draw()` just before `renderGrid()` runs: clock
update, then either the frozen knob branch (pause) or the live branch
(unpause and simulate). -/
def preRender (cfg : Config) (realNow : ℚ) (s : SimState) : SimState :=
  let s1 := updateClock realNow s
  if s1.knobActive then { s1 with clockPaused := true }
  else simulateEmittersAndActivations cfg { s1 with clockPaused := false }

/-- Source `draw()`: one animation frame.  Both branches end in
`renderGrid()`; the knob overlay is pure rendering and touches no state. -/
def draw (cfg : Config) (realNow : ℚ) (s : SimState) : SimState :=
  renderGridState cfg (preRender cfg realNow s)

/-- Source `mousePressed()`. -/
def mousePressed (mx my : ℚ) (s : SimState) : SimState :=
  if s.knobActive then { s with knobActive := false, clockPaused := false }
  else
    { s with
      isPointerDown := true
      isLongPress := false
      downAtMs := s.logicalNow
      lastPointer := (mx, my) }

/-- Source `mouseDragged()`. -/
def mouseDragged (mx my : ℚ) (s : SimState) : SimState :=
  { s with lastPointer := (mx, my) }

/-- Source `mouseMoved()`. -/
def mouseMoved (mx my : ℚ) (s : SimState) : SimState :=
  if s.isPointerDown then { s with lastPointer := (mx, my) } else s

/-- Source `mouseReleased()`. -/
def mouseReleased (s : SimState) : SimState :=
  { s with isPointerDown := false, isLongPress := false }

/-- Source `enterKnobMode()`: capture midpoint and separation of the first
two touches, activate the knob and freeze the clock together. -/
def enterKnobMode (cfg : Config) (touches : List (ℚ × ℚ)) (s : SimState) :
    SimState :=
  let p1 := touches.getD 0 (0, 0)
  let p2 := touches.getD 1 (0, 0)
  { s with
    knobCenter := ((p1.1 + p2.1) / 2, (p1.2 + p2.2) / 2)
    knobBaseDist := cfg.dist p1 p2
    knobLastDist := cfg.dist p1 p2
    knobAngle := 0
    knobEnteredAt := s.logicalNow
    knobActive := true
    clockPaused := true }

/-- Source `updateKnobWithPinch()`: knob centre follows the midpoint, the
pinch-distance delta drives the cosmetic angle and the clamped `HOLD_MS`. -/
def updateKnobWithPinch (cfg : Config) (touches : List (ℚ × ℚ)) (s : SimState) :
    SimState :=
  let p1 := touches.getD 0 (0, 0)
  let p2 := touches.getD 1 (0, 0)
  let center := ((p1.1 + p2.1) / 2, (p1.2 + p2.2) / 2)
  let curDist := cfg.dist p1 p2
  let delta := curDist - s.knobLastDist
  { s with
    knobCenter := center
    knobAngle := s.knobAngle + delta * 0.6
    holdMs := constrain (s.holdMs + delta * KNOB_SENSITIVITY) HOLD_MIN HOLD_MAX
    knobLastDist := curDist }

/-- Source `touchStarted()`: two contacts enter knob mode, a single tap while
the knob is active exits it, otherwise a single contact arms the long press
(`touches[0] || {mouseX, mouseY}` supplies the recorded position). -/
def touchStarted (cfg : Config) (touches : List (ℚ × ℚ)) (mx my : ℚ)
    (s : SimState) : SimState :=
  if decide (2 ≤ touches.length) then enterKnobMode cfg touches s
  else if s.knobActive && decide (touches.length = 1) then
    { s with knobActive := false, clockPaused := false }
  else
    { s with
      isPointerDown := true
      isLongPress := false
      downAtMs := s.logicalNow
      lastPointer := touches.headD (mx, my) }

/-- Source `touchMoved()`. -/
def touchMoved (cfg : Config) (touches : List (ℚ × ℚ)) (s : SimState) :
    SimState :=
  if s.knobActive && decide (2 ≤ touches.length) then
    updateKnobWithPinch cfg touches s
  else if decide (1 ≤ touches.length) then
    { s with lastPointer := touches.headD s.lastPointer }
  else s

/-- Source `touchEnded()`. -/
def touchEnded (touches : List (ℚ × ℚ)) (s : SimState) : SimState :=
  if touches.length = 0 then
    { s with isPointerDown := false, isLongPress := false }
  else s

/-- The input and frame callbacks p5 can deliver to the sketch. -/
inductive Event where
  | frame (realNow : ℚ)
  | mousePress (mx my : ℚ)
  | mouseDrag (mx my : ℚ)
  | mouseMove (mx my : ℚ)
  | mouseRelease
  | touchStart (touches : List (ℚ × ℚ)) (mx my : ℚ)
  | touchMove (touches : List (ℚ × ℚ))
  | touchEnd (touches : List (ℚ × ℚ))

/-- Dispatch one callback. -/
def handleEvent (cfg : Config) : Event → SimState → SimState
  | Event.frame r, s => draw cfg r s
  | Event.mousePress mx my, s => mousePressed mx my s
  | Event.mouseDrag mx my, s => mouseDragged mx my s
  | Event.mouseMove mx my, s => mouseMoved mx my s
  | Event.mouseRelease, s => mouseReleased s
  | Event.touchStart touches mx my, s => touchStarted cfg touches mx my s
  | Event.touchMove touches, s => touchMoved cfg touches s
  | Event.touchEnd touches, s => touchEnded touches s

/-- Fold a list of callbacks through the sketch. -/
def eventRun (cfg : Config) : List Event → SimState → SimState
  | [], s => s
  | e :: es, s => eventRun cfg es (handleEvent cfg e s)

/-- Fold a list of animation frames (their `millis()` readings) through
`draw`. -/
def drawRun (cfg : Config) : List ℚ → SimState → SimState
  | [], s => s
  | r :: rs, s => drawRun cfg rs (draw cfg r s)

/-- Clock-only run: before each tick the pause flag is set (externally, the
way `draw` and the gesture handlers do), then the clock is polled at the
given wall time. -/
def clockRun : List (ℚ × Bool) → SimState → SimState
  | [], s => s
  | (r, p) :: rest, s => clockRun rest (updateClock r { s with clockPaused := p })

/-- Total logical time a frame schedule contributes: each unpaused frame adds
its wall delta, each paused frame adds nothing. -/
def unpausedSum (last : ℚ) : List (ℚ × Bool) → ℚ
  | [] => 0
  | (r, p) :: rest => (if p then 0 else r - last) + unpausedSum r rest

/-- Fold a list of pinch updates (each a touch-point list) through
`updateKnobWithPinch`. -/
def pinchRun (cfg : Config) : List (List (ℚ × ℚ)) → SimState → SimState
  | [], s => s
  | t :: ts, s => pinchRun cfg ts (updateKnobWithPinch cfg t s)

/-- Guard of the long-press branch in `simulateEmittersAndActivations` as it
is reached from `draw` at wall time `r`: the knob overlay is not active, the
pointer is held, no long press is running yet, and the (freshly ticked)
logical clock has passed `downAtMs + LONGPRESS_MS`. -/
def newGestureBegins (r : ℚ) (s : SimState) : Prop :=
  s.knobActive = false ∧ s.isPointerDown = true ∧ s.isLongPress = false ∧
    LONGPRESS_MS ≤ (updateClock r s).logicalNow - s.downAtMs

/-- C4's inductive invariant: the logical clock never goes negative (wall
time is monotone), and while a long press is running no tile carries the
DONE sentinel `-2` — which is what keeps the trigger guard `startMs < 0`
from re-triggering a finished tile. -/
def GestureInv (s : SimState) : Prop :=
  0 ≤ s.logicalNow ∧ (s.isLongPress = true → ∀ iy ix, s.startMs iy ix ≠ -2)

/-- A concrete environment used to instantiate the theorems on closed
inputs: tile centres on a simple lattice far from the origin, arbitrary
shape tables, unit scale. -/
def cfgW : Config where
  tileCenter := fun iy ix => (10000 + 100 * (ix : ℚ), 10000 + 100 * (iy : ℚ))
  maxReachDist := 1000
  dist := fun p q => (p.1 - q.1) + (p.2 - q.2)
  sqr := fun i => ((i : ℚ), 0)
  cir := fun i => (0, (i : ℚ))
  tri := fun i => ((i : ℚ), (i : ℚ))
  sScale := 1

/-- A frozen state: knob overlay active with the clock paused (the pair of
flags `enterKnobMode` sets together). -/
def frozenState : SimState :=
  { initState with knobActive := true, clockPaused := true }

/-- Invariant of the press-and-hold scenario while the long press has not
fired yet: single pointer held at `(px, py)` since logical time 0, no knob,
clock running and caught up (`logicalNow = lastReal`), no emitters. -/
def PressPhase (px py : ℚ) (s : SimState) : Prop :=
  s.knobActive = false ∧ s.clockPaused = false ∧ s.isPointerDown = true ∧
    s.isLongPress = false ∧ s.emitters = [] ∧ s.downAtMs = 0 ∧
    s.logicalNow = s.lastReal ∧ s.lastPointer = (px, py)

/-- Invariant of the press-and-hold scenario after the long press fired at
logical time `t`: exactly the one emitter spawned at `(px, py)` at time `t`,
which is also the last emission time. -/
def LongPressPhase (px py t : ℚ) (s : SimState) : Prop :=
  s.knobActive = false ∧ s.clockPaused = false ∧ s.isPointerDown = true ∧
    s.isLongPress = true ∧ s.emitters = [Emitter.mk t px py] ∧
    s.lastEmitMs = t ∧ s.logicalNow = s.lastReal ∧ s.lastPointer = (px, py)

end RippleGrid

namespace RippleGrid

section ProjectionLemmas

variable {cfg : Config} {s : SimState} {r t x y : ℚ}

@[simp] theorem updateClock_logicalNow :
    (updateClock r s).logicalNow =
      if s.clockPaused then s.logicalNow else s.logicalNow + (r - s.lastReal) := by
  unfold updateClock; cases h : s.clockPaused <;> simp [h]

@[simp] theorem updateClock_lastReal : (updateClock r s).lastReal = r := by
  unfold updateClock; cases h : s.clockPaused <;> simp [h]

@[simp] theorem updateClock_clockPaused :
    (updateClock r s).clockPaused = s.clockPaused := by
  unfold updateClock; cases h : s.clockPaused <;> simp [h]

@[simp] theorem updateClock_knobActive :
    (updateClock r s).knobActive = s.knobActive := by
  unfold updateClock; cases h : s.clockPaused <;> simp [h]

@[simp] theorem updateClock_isLongPress :
    (updateClock r s).isLongPress = s.isLongPress := by
  unfold updateClock; cases h : s.clockPaused <;> simp [h]

@[simp] theorem updateClock_isPointerDown :
    (updateClock r s).isPointerDown = s.isPointerDown := by
  unfold updateClock; cases h : s.clockPaused <;> simp [h]

@[simp] theorem updateClock_startMs : (updateClock r s).startMs = s.startMs := by
  unfold updateClock; cases h : s.clockPaused <;> simp [h]

@[simp] theorem updateClock_stopAtMs : (updateClock r s).stopAtMs = s.stopAtMs := by
  unfold updateClock; cases h : s.clockPaused <;> simp [h]

@[simp] theorem updateClock_emitters : (updateClock r s).emitters = s.emitters := by
  unfold updateClock; cases h : s.clockPaused <;> simp [h]

@[simp] theorem updateClock_lastEmitMs :
    (updateClock r s).lastEmitMs = s.lastEmitMs := by
  unfold updateClock; cases h : s.clockPaused <;> simp [h]

@[simp] theorem updateClock_lastPointer :
    (updateClock r s).lastPointer = s.lastPointer := by
  unfold updateClock; cases h : s.clockPaused <;> simp [h]

@[simp] theorem updateClock_downAtMs : (updateClock r s).downAtMs = s.downAtMs := by
  unfold updateClock; cases h : s.clockPaused <;> simp [h]

@[simp] theorem updateClock_holdMs : (updateClock r s).holdMs = s.holdMs := by
  unfold updateClock; cases h : s.clockPaused <;> simp [h]

@[simp] theorem renderGridState_holdMs : (renderGridState cfg s).holdMs = s.holdMs := rfl

@[simp] theorem renderGridState_emitters :
    (renderGridState cfg s).emitters = s.emitters := rfl

@[simp] theorem renderGridState_lastEmitMs :
    (renderGridState cfg s).lastEmitMs = s.lastEmitMs := rfl

@[simp] theorem renderGridState_isPointerDown :
    (renderGridState cfg s).isPointerDown = s.isPointerDown := rfl

@[simp] theorem renderGridState_isLongPress :
    (renderGridState cfg s).isLongPress = s.isLongPress := rfl

@[simp] theorem renderGridState_lastPointer :
    (renderGridState cfg s).lastPointer = s.lastPointer := rfl

@[simp] theorem renderGridState_logicalNow :
    (renderGridState cfg s).logicalNow = s.logicalNow := rfl

@[simp] theorem renderGridState_lastReal :
    (renderGridState cfg s).lastReal = s.lastReal := rfl

@[simp] theorem renderGridState_clockPaused :
    (renderGridState cfg s).clockPaused = s.clockPaused := rfl

@[simp] theorem renderGridState_downAtMs :
    (renderGridState cfg s).downAtMs = s.downAtMs := rfl

@[simp] theorem renderGridState_knobActive :
    (renderGridState cfg s).knobActive = s.knobActive := rfl

theorem renderGridState_startMs (cfg : Config) (s : SimState)
    (iy : Fin ROWS) (ix : Fin COLS) :
    (renderGridState cfg s).startMs iy ix =
      (renderTileStep cfg s.emitters s.logicalNow s.holdMs s.isLongPress
        (cfg.tileCenter iy ix).1 (cfg.tileCenter iy ix).2
        (s.startMs iy ix) (s.stopAtMs iy ix)).newStart := rfl

theorem renderGridState_stopAtMs (cfg : Config) (s : SimState)
    (iy : Fin ROWS) (ix : Fin COLS) :
    (renderGridState cfg s).stopAtMs iy ix =
      (renderTileStep cfg s.emitters s.logicalNow s.holdMs s.isLongPress
        (cfg.tileCenter iy ix).1 (cfg.tileCenter iy ix).2
        (s.startMs iy ix) (s.stopAtMs iy ix)).newStop := rfl

@[simp] theorem spawnEmitter_lastEmitMs :
    (spawnEmitter t x y s).lastEmitMs = t := rfl

@[simp] theorem spawnEmitter_isLongPress :
    (spawnEmitter t x y s).isLongPress = s.isLongPress := rfl

@[simp] theorem spawnEmitter_isPointerDown :
    (spawnEmitter t x y s).isPointerDown = s.isPointerDown := rfl

@[simp] theorem spawnEmitter_logicalNow :
    (spawnEmitter t x y s).logicalNow = s.logicalNow := rfl

@[simp] theorem spawnEmitter_lastReal :
    (spawnEmitter t x y s).lastReal = s.lastReal := rfl

@[simp] theorem spawnEmitter_clockPaused :
    (spawnEmitter t x y s).clockPaused = s.clockPaused := rfl

@[simp] theorem spawnEmitter_knobActive :
    (spawnEmitter t x y s).knobActive = s.knobActive := rfl

@[simp] theorem spawnEmitter_startMs :
    (spawnEmitter t x y s).startMs = s.startMs := rfl

@[simp] theorem spawnEmitter_stopAtMs :
    (spawnEmitter t x y s).stopAtMs = s.stopAtMs := rfl

@[simp] theorem spawnEmitter_lastPointer :
    (spawnEmitter t x y s).lastPointer = s.lastPointer := rfl

@[simp] theorem spawnEmitter_downAtMs :
    (spawnEmitter t x y s).downAtMs = s.downAtMs := rfl

@[simp] theorem spawnEmitter_holdMs :
    (spawnEmitter t x y s).holdMs = s.holdMs := rfl

theorem spawnEmitter_emitters :
    (spawnEmitter t x y s).emitters =
      (if MAX_EMITTERS < (s.emitters ++ [Emitter.mk t x y]).length then
        (s.emitters ++ [Emitter.mk t x y]).drop
          ((s.emitters ++ [Emitter.mk t x y]).length - MAX_EMITTERS)
      else s.emitters ++ [Emitter.mk t x y]) := rfl

theorem simulate_fields (cfg : Config) (s : SimState) :
    (simulateEmittersAndActivations cfg s).knobActive = s.knobActive ∧
    (simulateEmittersAndActivations cfg s).clockPaused = s.clockPaused ∧
    (simulateEmittersAndActivations cfg s).logicalNow = s.logicalNow ∧
    (simulateEmittersAndActivations cfg s).lastReal = s.lastReal ∧
    (simulateEmittersAndActivations cfg s).isPointerDown = s.isPointerDown ∧
    (simulateEmittersAndActivations cfg s).downAtMs = s.downAtMs ∧
    (simulateEmittersAndActivations cfg s).lastPointer = s.lastPointer ∧
    (simulateEmittersAndActivations cfg s).holdMs = s.holdMs := by
  unfold simulateEmittersAndActivations
  dsimp only
  split <;> split <;>
    simp [spawnEmitter, resetForNewGesture]

theorem draw_knobActive (cfg : Config) (r : ℚ) (s : SimState) :
    (draw cfg r s).knobActive = s.knobActive := by
  unfold draw preRender
  dsimp only
  split
  · simp
  · simp [(simulate_fields cfg _).1]

theorem draw_clockPaused (cfg : Config) (r : ℚ) (s : SimState) :
    (draw cfg r s).clockPaused = s.knobActive := by
  unfold draw preRender
  dsimp only
  split
  · rename_i h
    simp at h
    simp [h]
  · rename_i h
    simp at h
    simp [h, (simulate_fields cfg _).2.1]

theorem draw_frozen (cfg : Config) (r : ℚ) (s : SimState)
    (h1 : s.knobActive = true) (h2 : s.clockPaused = true) :
    (draw cfg r s).logicalNow = s.logicalNow ∧ (draw cfg r s).knobActive = true ∧
      (draw cfg r s).clockPaused = true := by
  unfold draw preRender
  dsimp only
  split
  · simp [h1, h2]
  · rename_i h
    simp [h1] at h

end ProjectionLemmas

section EasyClaims

/-- Clamping into `[lo, hi]` lands in `[lo, hi]` whenever `lo ≤ hi`. -/
theorem constrain_mem (n lo hi : ℚ) (h : lo ≤ hi) :
    lo ≤ constrain n lo hi ∧ constrain n lo hi ≤ hi := by
  unfold constrain
  exact ⟨le_max_right _ _, max_le (min_le_right _ _) h⟩

/-- C7: the clock tick adds the wall-clock delta to `logicalNow` iff
`clockPaused` is false and leaves it unchanged when paused; while the knob
overlay is active with the clock paused (the TUNING mode), `logicalNow` is
unchanged across any number of frames; and the input handlers (in
particular the ones that pause or resume the clock) never alter
`logicalNow`. -/
theorem claim_C7_clock_freeze (cfg : Config) :
    (∀ (r : ℚ) (s : SimState),
      (updateClock r s).logicalNow =
        (if s.clockPaused then s.logicalNow else s.logicalNow + (r - s.lastReal)) ∧
      (updateClock r s).clockPaused = s.clockPaused) ∧
    (∀ (frames : List ℚ) (s : SimState),
      s.knobActive = true → s.clockPaused = true →
      (drawRun cfg frames s).logicalNow = s.logicalNow) ∧
    (∀ (e : Event) (s : SimState), (∀ q : ℚ, e ≠ Event.frame q) →
      (handleEvent cfg e s).logicalNow = s.logicalNow) := by
  refine ⟨?_, ?_, ?_⟩
  · intro r s
    exact ⟨updateClock_logicalNow, updateClock_clockPaused⟩
  · intro frames
    induction frames with
    | nil => intro s _ _; rfl
    | cons r rs ih =>
      intro s h1 h2
      have hd := draw_frozen cfg r s h1 h2
      unfold drawRun
      rw [ih (draw cfg r s) hd.2.1 hd.2.2, hd.1]
  · intro e s he
    cases e with
    | frame q => exact absurd rfl (he q)
    | mousePress mx my =>
      show (mousePressed mx my s).logicalNow = s.logicalNow
      unfold mousePressed
      split <;> rfl
    | mouseDrag mx my => rfl
    | mouseMove mx my =>
      show (mouseMoved mx my s).logicalNow = s.logicalNow
      unfold mouseMoved
      split <;> rfl
    | mouseRelease => rfl
    | touchStart touches mx my =>
      show (touchStarted cfg touches mx my s).logicalNow = s.logicalNow
      unfold touchStarted enterKnobMode
      split
      · rfl
      · split <;> rfl
    | touchMove touches =>
      show (touchMoved cfg touches s).logicalNow = s.logicalNow
      unfold touchMoved updateKnobWithPinch
      split
      · rfl
      · split <;> rfl
    | touchEnd touches =>
      show (touchEnded touches s).logicalNow = s.logicalNow
      unfold touchEnded
      split <;> rfl

/-- C7 witness: a frozen state stays at its logical time across two frames,
and a non-frame handler leaves the logical time unchanged. -/
theorem claim_C7_witness :
    (drawRun cfgW [5, 10] frozenState).logicalNow = frozenState.logicalNow ∧
    (handleEvent cfgW Event.mouseRelease frozenState).logicalNow =
      frozenState.logicalNow := by
  constructor
  · exact (claim_C7_clock_freeze cfgW).2.1 [5, 10] frozenState rfl rfl
  · refine (claim_C7_clock_freeze cfgW).2.2 Event.mouseRelease frozenState ?_
    intro q h
    simp at h

/-- C10: `lastReal` is refreshed on every frame whether paused or not, so a
resume never applies the wall time accumulated while paused: over any frame
schedule the final `logicalNow` is the initial one plus the wall deltas of
exactly the unpaused frames; in particular after a paused frame at `r1`
followed by an unpaused frame at `r2` the clock has advanced by `r2 - r1`
only. -/
theorem claim_C10_no_pause_catchup :
    (∀ (frames : List (ℚ × Bool)) (s : SimState),
      (clockRun frames s).logicalNow = s.logicalNow + unpausedSum s.lastReal frames) ∧
    (∀ (s : SimState) (r1 r2 : ℚ),
      (clockRun [(r1, true), (r2, false)] s).logicalNow = s.logicalNow + (r2 - r1)) := by
  have hcons : ∀ (last r : ℚ) (p : Bool) (rest : List (ℚ × Bool)),
      unpausedSum last ((r, p) :: rest) =
        (if p then 0 else r - last) + unpausedSum r rest := fun _ _ _ _ => rfl
  have main : ∀ (frames : List (ℚ × Bool)) (s : SimState),
      (clockRun frames s).logicalNow = s.logicalNow + unpausedSum s.lastReal frames := by
    intro frames
    induction frames with
    | nil => intro s; simp [clockRun, unpausedSum]
    | cons f rest ih =>
      intro s
      obtain ⟨r, p⟩ := f
      show (clockRun rest (updateClock r { s with clockPaused := p })).logicalNow = _
      rw [ih, hcons]
      cases p <;> simp <;> ring
  refine ⟨main, fun s r1 r2 => ?_⟩
  rw [main, hcons, hcons]
  simp [unpausedSum]

/-- C6: `holdMs` stays within `[HOLD_MIN, HOLD_MAX]` after any finite
sequence of pinch updates with arbitrary distance deltas, provided it
started in range. -/
theorem claim_C6_hold_clamped (cfg : Config) (updates : List (List (ℚ × ℚ)))
    (s : SimState) (h1 : HOLD_MIN ≤ s.holdMs) (h2 : s.holdMs ≤ HOLD_MAX) :
    HOLD_MIN ≤ (pinchRun cfg updates s).holdMs ∧
      (pinchRun cfg updates s).holdMs ≤ HOLD_MAX := by
  induction updates generalizing s with
  | nil => exact ⟨h1, h2⟩
  | cons t ts ih =>
    unfold pinchRun
    apply ih
    all_goals
      have hc := constrain_mem
        (s.holdMs + (cfg.dist (t.getD 0 (0, 0)) (t.getD 1 (0, 0)) - s.knobLastDist) *
          KNOB_SENSITIVITY) HOLD_MIN HOLD_MAX (by norm_num [HOLD_MIN, HOLD_MAX])
    · exact hc.1
    · exact hc.2

/-- C6 witness: one violent pinch update on the initial state stays in
range. -/
theorem claim_C6_witness :
    HOLD_MIN ≤ (pinchRun cfgW [[(0, 0), (99999, 0)]] initState).holdMs ∧
      (pinchRun cfgW [[(0, 0), (99999, 0)]] initState).holdMs ≤ HOLD_MAX :=
  claim_C6_hold_clamped cfgW [[(0, 0), (99999, 0)]] initState
    (by norm_num [initState, HOLD_MIN]) (by norm_num [initState, HOLD_MAX])

/-- Dropping up to the first index whose element satisfies `p` is the same
as dropping the longest prefix of elements failing `p`. -/
theorem drop_findIdx_eq_dropWhile {α : Type} (p : α → Bool) (l : List α) :
    l.drop (l.findIdx p) = l.dropWhile fun a => !(p a) := by
  induction l with
  | nil => rfl
  | cons a t ih =>
    rw [List.findIdx_cons, List.dropWhile_cons]
    cases h : p a <;> simp [h, ih]

/-- C9: pruning drops exactly the longest prefix of (oldest-first) emitters
whose ring radius has reached `maxReachDist`, stopping at the first emitter
still in reach: the result is the `dropWhile` of the unreachability test,
every removed emitter really had `maxReachDist ≤ R`, and the survivors are a
suffix (no younger emitter is removed while an older one is kept). -/
theorem claim_C9_prune_prefix (m now : ℚ) (es : List Emitter) :
    pruneEmitters m now es =
      es.dropWhile (fun e => decide (m ≤ (now - e.t0) * WAVE_SPEED_PX_PER_MS)) ∧
    (∀ e ∈ es, e ∉ pruneEmitters m now es →
      m ≤ (now - e.t0) * WAVE_SPEED_PX_PER_MS) ∧
    List.IsSuffix (pruneEmitters m now es) es := by
  have heq : pruneEmitters m now es =
      es.dropWhile (fun e => decide (m ≤ (now - e.t0) * WAVE_SPEED_PX_PER_MS)) := by
    unfold pruneEmitters
    rw [drop_findIdx_eq_dropWhile]
    congr 1
    funext e
    rcases le_or_lt m ((now - e.t0) * WAVE_SPEED_PX_PER_MS) with h | h
    · simp [h, not_lt.mpr h]
    · simp [h, not_le.mpr h]
  refine ⟨heq, ?_, ?_⟩
  · intro e hmem hnot
    rw [heq] at hnot
    have hsplit := List.takeWhile_append_dropWhile
      (fun e => decide (m ≤ (now - e.t0) * WAVE_SPEED_PX_PER_MS)) es
    rw [← hsplit] at hmem
    rcases List.mem_append.mp hmem with h | h
    · have := List.mem_takeWhile_imp h
      exact of_decide_eq_true this
    · exact absurd h hnot
  · rw [heq]
    exact List.dropWhile_suffix _

/-- C8: the knob's active flag and the clock's paused flag always change
together: every input handler and every frame preserves their equality (a
frame even re-establishes it unconditionally), so at every observable point
of a run the two flags agree. -/
theorem claim_C8_knob_pause_coupled (cfg : Config) :
    (∀ (e : Event) (s : SimState), s.knobActive = s.clockPaused →
      (handleEvent cfg e s).knobActive = (handleEvent cfg e s).clockPaused) ∧
    (∀ (events : List Event) (s : SimState), s.knobActive = s.clockPaused →
      (eventRun cfg events s).knobActive = (eventRun cfg events s).clockPaused) := by
  have step : ∀ (e : Event) (s : SimState), s.knobActive = s.clockPaused →
      (handleEvent cfg e s).knobActive = (handleEvent cfg e s).clockPaused := by
    intro e s h
    cases e with
    | frame q =>
      show (draw cfg q s).knobActive = (draw cfg q s).clockPaused
      rw [draw_knobActive, draw_clockPaused]
    | mousePress mx my =>
      show (mousePressed mx my s).knobActive = (mousePressed mx my s).clockPaused
      unfold mousePressed
      split <;> simp [h]
    | mouseDrag mx my => exact h
    | mouseMove mx my =>
      show (mouseMoved mx my s).knobActive = (mouseMoved mx my s).clockPaused
      unfold mouseMoved
      split <;> simp [h]
    | mouseRelease => exact h
    | touchStart touches mx my =>
      show (touchStarted cfg touches mx my s).knobActive =
        (touchStarted cfg touches mx my s).clockPaused
      unfold touchStarted enterKnobMode
      split
      · rfl
      · split <;> simp [h]
    | touchMove touches =>
      show (touchMoved cfg touches s).knobActive = (touchMoved cfg touches s).clockPaused
      unfold touchMoved updateKnobWithPinch
      split
      · simp [h]
      · split <;> simp [h]
    | touchEnd touches =>
      show (touchEnded touches s).knobActive = (touchEnded touches s).clockPaused
      unfold touchEnded
      split <;> simp [h]
  refine ⟨step, ?_⟩
  intro events
  induction events with
  | nil => intro s h; exact h
  | cons e es ih =>
    intro s h
    exact ih (handleEvent cfg e s) (step e s h)

/-- C8 witness: entering knob mode, drawing a frame and exiting by mouse
leave the two flags equal on a concrete run. -/
theorem claim_C8_witness :
    (eventRun cfgW [Event.touchStart [(0, 0), (10, 0)] 0 0, Event.frame 20,
        Event.mousePress 5 5] initState).knobActive =
      (eventRun cfgW [Event.touchStart [(0, 0), (10, 0)] 0 0, Event.frame 20,
        Event.mousePress 5 5] initState).clockPaused :=
  (claim_C8_knob_pause_coupled cfgW).2
    [Event.touchStart [(0, 0), (10, 0)] 0 0, Event.frame 20, Event.mousePress 5 5]
    initState rfl

/-- C5: at an exact cycle boundary (`elapsed mod CYCLE_MS = 0`) the loop
drawing selects stage 0 with interpolation factor 0 and therefore emits
exactly the square silhouette's vertex stream, for every `holdMs` in range. -/
theorem claim_C5_boundary_square (cfg : Config) (holdMs elapsed scale : ℚ)
    (h1 : HOLD_MIN ≤ holdMs) (h2 : holdMs ≤ HOLD_MAX)
    (h3 : jsMod elapsed (CYCLE_MS holdMs) = 0) :
    drawLoopCycle cfg holdMs elapsed scale = drawShape cfg.sqr scale := by
  unfold drawLoopCycle drawShape
  rw [h3]
  dsimp only
  congr 1
  funext i
  norm_num [SEG_MS, HALF_MS, easeInOutCubic, lerp]

/-- C5 witness: one full cycle after triggering with `holdMs = 1500`
(`CYCLE_MS = 5400`), the tile draws the square. -/
theorem claim_C5_witness :
    drawLoopCycle cfgW 1500 5400 1 = drawShape cfgW.sqr 1 :=
  claim_C5_boundary_square cfgW 1500 5400 1 (by norm_num [HOLD_MIN])
    (by norm_num [HOLD_MAX])
    (by norm_num [jsMod, jsTrunc, CYCLE_MS, SEG_MS, HALF_MS])

/-- C1: for an animating tile (`t0 ≥ 0`) observed after release
(`isLongPress = false`): on the first frame with `stopAtMs` still unset the
code stores `t0 + ceil((now - t0) / CYCLE_MS) * CYCLE_MS`, which is the
least cycle boundary of the tile at or after `now` (an integer, nonnegative
number of cycles past `t0`); on any frame with `stopAtMs = s` already set,
the tile flips to the DONE sentinel `-2` exactly when `now ≥ s`, drawing the
rest square then and the looping cycle otherwise. -/
theorem claim_C1_planned_stop (cfg : Config) (es : List Emitter)
    (now holdMs cx cy t0 s : ℚ)
    (hmin : HOLD_MIN ≤ holdMs) (hmax : holdMs ≤ HOLD_MAX)
    (ht0 : 0 ≤ t0) (hnow : t0 ≤ now) :
    ((renderTileStep cfg es now holdMs false cx cy t0 (-1)).newStop =
        t0 + (⌈(now - t0) / CYCLE_MS holdMs⌉ : ℤ) * CYCLE_MS holdMs ∧
      now ≤ (renderTileStep cfg es now holdMs false cx cy t0 (-1)).newStop ∧
      (∃ m : ℤ, 0 ≤ m ∧
        (renderTileStep cfg es now holdMs false cx cy t0 (-1)).newStop =
          t0 + m * CYCLE_MS holdMs) ∧
      (∀ m : ℤ, now ≤ t0 + m * CYCLE_MS holdMs →
        (renderTileStep cfg es now holdMs false cx cy t0 (-1)).newStop ≤
          t0 + m * CYCLE_MS holdMs)) ∧
    (s ≠ -1 →
      ((renderTileStep cfg es now holdMs false cx cy t0 s).newStop = s ∧
        ((renderTileStep cfg es now holdMs false cx cy t0 s).newStart = -2 ↔ s ≤ now) ∧
        (s ≤ now →
          (renderTileStep cfg es now holdMs false cx cy t0 s).verts =
            drawShape cfg.sqr cfg.sScale) ∧
        (¬ s ≤ now →
          (renderTileStep cfg es now holdMs false cx cy t0 s).newStart = t0 ∧
          (renderTileStep cfg es now holdMs false cx cy t0 s).verts =
            drawLoopCycle cfg holdMs (now - t0) cfg.sScale))) := by
  have hcyc : 0 < CYCLE_MS holdMs := by
    unfold CYCLE_MS SEG_MS HALF_MS
    unfold HOLD_MIN at hmin
    linarith
  have hne : ¬(t0 = -1 ∨ t0 = -2) := by
    rintro (h | h) <;> rw [h] at ht0 <;> norm_num at ht0
  have ht2 : t0 ≠ -2 := by
    intro h; rw [h] at ht0; norm_num at ht0
  constructor
  · have hstop : (renderTileStep cfg es now holdMs false cx cy t0 (-1)).newStop =
        t0 + (⌈(now - t0) / CYCLE_MS holdMs⌉ : ℤ) * CYCLE_MS holdMs := by
      unfold renderTileStep
      simp only [Bool.false_and, Bool.false_eq_true, if_false]
      rw [if_neg hne]
      simp only [if_true]
      split <;> rfl
    have hle : now ≤ t0 + (⌈(now - t0) / CYCLE_MS holdMs⌉ : ℤ) * CYCLE_MS holdMs := by
      have hx : (now - t0) / CYCLE_MS holdMs ≤
          ((⌈(now - t0) / CYCLE_MS holdMs⌉ : ℤ) : ℚ) := Int.le_ceil _
      have hx2 : (now - t0) / CYCLE_MS holdMs * CYCLE_MS holdMs ≤
          ((⌈(now - t0) / CYCLE_MS holdMs⌉ : ℤ) : ℚ) * CYCLE_MS holdMs :=
        mul_le_mul_of_nonneg_right hx hcyc.le
      rw [div_mul_cancel₀ _ (ne_of_gt hcyc)] at hx2
      linarith
    refine ⟨hstop, ?_, ?_, ?_⟩
    · rw [hstop]; exact hle
    · refine ⟨⌈(now - t0) / CYCLE_MS holdMs⌉, ?_, hstop⟩
      exact Int.ceil_nonneg (div_nonneg (by linarith) hcyc.le)
    · intro m hm
      rw [hstop]
      have hq : (now - t0) / CYCLE_MS holdMs ≤ (m : ℚ) := by
        rw [div_le_iff hcyc]
        linarith
      have hcm : (⌈(now - t0) / CYCLE_MS holdMs⌉ : ℤ) ≤ m := Int.ceil_le.mpr hq
      have hcm2 : ((⌈(now - t0) / CYCLE_MS holdMs⌉ : ℤ) : ℚ) ≤ (m : ℚ) := by
        exact_mod_cast hcm
      have := mul_le_mul_of_nonneg_right hcm2 hcyc.le
      linarith
  · intro hs
    have hstep : renderTileStep cfg es now holdMs false cx cy t0 s =
        if s ≤ now then ⟨-2, s, drawShape cfg.sqr cfg.sScale⟩
        else ⟨t0, s, drawLoopCycle cfg holdMs (now - t0) cfg.sScale⟩ := by
      unfold renderTileStep
      simp only [Bool.false_and, Bool.false_eq_true, if_false]
      rw [if_neg hne, if_neg hs]
    rw [hstep]
    by_cases hc : s ≤ now
    · rw [if_pos hc]
      exact ⟨rfl, by simp [hc], fun _ => rfl, fun h => absurd hc h⟩
    · rw [if_neg hc]
      exact ⟨rfl, iff_of_false ht2 hc, fun h => absurd h hc, fun _ => ⟨rfl, rfl⟩⟩

/-- C1 witness: the scenario `holdMs = 1500` (`CYCLE_MS = 5400`), triggered
at `t0 = 1000`, released and first observed at `now = 2000`, plans the stop
at `6400`; and a tile with a planned stop of `2500` still in the future is
still animating (its `startMs` stays `1000`). -/
theorem claim_C1_witness :
    (renderTileStep cfgW [] 2000 1500 false 0 0 1000 (-1)).newStop = 6400 ∧
    (renderTileStep cfgW [] 2000 1500 false 0 0 1000 2500).newStart = 1000 := by
  have h := claim_C1_planned_stop cfgW [] 2000 1500 0 0 1000 2500
    (by norm_num [HOLD_MIN]) (by norm_num [HOLD_MAX]) (by norm_num) (by norm_num)
  constructor
  · rw [h.1.1]
    have hc : CYCLE_MS (1500 : ℚ) = 5400 := by norm_num [CYCLE_MS, SEG_MS, HALF_MS]
    rw [hc]
    have h2 : (⌈((2000 : ℚ) - 1000) / 5400⌉ : ℤ) = 1 := by
      rw [Int.ceil_eq_iff] <;> norm_num
    rw [h2]
    norm_num
  · exact ((h.2 (by norm_num)).2.2.2 (by norm_num)).1

/-- C2: the covers test returns true iff some emitter of the collection has
nonnegative age and its ring of radius `age * WAVE_SPEED` passes within
`ACTIVATION_BAND` of the point (a negative-age emitter never matches); a
single emitter covers its own origin exactly while the age lies in
`[0, ACTIVATION_BAND / WAVE_SPEED]`; and a point at distance 100 from a
single emitter's origin is covered exactly while the age lies in `[75, 175]`
(with `WAVE_SPEED = 0.8`, `ACTIVATION_BAND = 40`). -/
theorem claim_C2_covers :
    (∀ (now px py : ℚ) (es : List Emitter),
      hitByAnyEmitter now px py es = true ↔
        ∃ e ∈ es, 0 ≤ now - e.t0 ∧
          |distR px py e.x e.y - (((now - e.t0) * WAVE_SPEED_PX_PER_MS : ℚ) : ℝ)| ≤
            ((ACTIVATION_BAND : ℚ) : ℝ)) ∧
    (∀ (now : ℚ) (e : Emitter),
      hitByAnyEmitter now e.x e.y [e] = true ↔
        (0 ≤ now - e.t0 ∧ now - e.t0 ≤ ACTIVATION_BAND / WAVE_SPEED_PX_PER_MS)) ∧
    (∀ (now px py : ℚ) (e : Emitter), distR px py e.x e.y = 100 →
      (hitByAnyEmitter now px py [e] = true ↔
        (75 ≤ now - e.t0 ∧ now - e.t0 ≤ 175))) := by
  have hmain : ∀ (now px py : ℚ) (es : List Emitter),
      hitByAnyEmitter now px py es = true ↔
        ∃ e ∈ es, 0 ≤ now - e.t0 ∧
          |distR px py e.x e.y - (((now - e.t0) * WAVE_SPEED_PX_PER_MS : ℚ) : ℝ)| ≤
            ((ACTIVATION_BAND : ℚ) : ℝ) := by
    intro now px py es
    unfold hitByAnyEmitter
    rw [List.any_eq_true]
    constructor
    · rintro ⟨e, hmem, hdec⟩
      have h3 : hitOne now px py e := of_decide_eq_true hdec
      exact ⟨e, List.mem_reverse.mp hmem, h3⟩
    · rintro ⟨e, hmem, hcond⟩
      have hcond2 : hitOne now px py e := hcond
      exact ⟨e, List.mem_reverse.mpr hmem, decide_eq_true hcond2⟩
  refine ⟨hmain, ?_, ?_⟩
  · intro now e
    rw [hmain]
    simp only [List.mem_singleton, exists_eq_left]
    have hd : distR e.x e.y e.x e.y = 0 := by
      unfold distR
      simp
    rw [hd]
    apply and_congr_right
    intro ha
    have hR0 : (0 : ℝ) ≤ (((now - e.t0) * WAVE_SPEED_PX_PER_MS : ℚ) : ℝ) := by
      have h1 : (0 : ℚ) ≤ (now - e.t0) * WAVE_SPEED_PX_PER_MS :=
        mul_nonneg ha (by norm_num [WAVE_SPEED_PX_PER_MS])
      exact_mod_cast h1
    rw [zero_sub, abs_neg, abs_of_nonneg hR0]
    constructor
    · intro h
      have h2 : (now - e.t0) * WAVE_SPEED_PX_PER_MS ≤ ACTIVATION_BAND := by
        exact_mod_cast h
      unfold ACTIVATION_BAND WAVE_SPEED_PX_PER_MS at h2 ⊢
      rw [show (40 : ℚ) / 0.8 = 50 from by norm_num]
      linarith
    · intro h
      have h2 : (now - e.t0) * WAVE_SPEED_PX_PER_MS ≤ ACTIVATION_BAND := by
        unfold ACTIVATION_BAND WAVE_SPEED_PX_PER_MS at h ⊢
        rw [show (40 : ℚ) / 0.8 = 50 from by norm_num] at h
        linarith
      exact_mod_cast h2
  · intro now px py e hd
    rw [hmain]
    simp only [List.mem_singleton, exists_eq_left]
    rw [hd]
    constructor
    · rintro ⟨ha, habs⟩
      rw [abs_le] at habs
      obtain ⟨hlo, hhi⟩ := habs
      have h1 : (100 : ℚ) - (now - e.t0) * WAVE_SPEED_PX_PER_MS ≤ ACTIVATION_BAND := by
        exact_mod_cast hhi
      have h2 : -(ACTIVATION_BAND : ℚ) ≤ 100 - (now - e.t0) * WAVE_SPEED_PX_PER_MS := by
        exact_mod_cast hlo
      unfold ACTIVATION_BAND WAVE_SPEED_PX_PER_MS at h1 h2
      constructor <;> linarith
    · rintro ⟨h75, h175⟩
      have ha : (0 : ℚ) ≤ now - e.t0 := by linarith
      refine ⟨ha, ?_⟩
      rw [abs_le]
      have h1 : (100 : ℚ) - (now - e.t0) * WAVE_SPEED_PX_PER_MS ≤ ACTIVATION_BAND := by
        unfold ACTIVATION_BAND WAVE_SPEED_PX_PER_MS
        linarith
      have h2 : -(ACTIVATION_BAND : ℚ) ≤ 100 - (now - e.t0) * WAVE_SPEED_PX_PER_MS := by
        unfold ACTIVATION_BAND WAVE_SPEED_PX_PER_MS
        linarith
      constructor
      · exact_mod_cast h2
      · exact_mod_cast h1

/-- C2 witness: an emitter at the origin, aged 100, covers the point
`(100, 0)` at distance 100 (age 100 lies in `[75, 175]`); and an emitter
aged 30 covers its own origin (30 lies in `[0, 50]`). -/
theorem claim_C2_witness :
    hitByAnyEmitter 100 100 0 [Emitter.mk 0 0 0] = true ∧
    hitByAnyEmitter 30 5 5 [Emitter.mk 0 5 5] = true := by
  constructor
  · have hd : distR 100 0 0 0 = 100 := by
      unfold distR
      norm_num
      rw [show (10000 : ℝ) = 100 ^ 2 from by norm_num]
      exact Real.sqrt_sq (by norm_num)
    exact (claim_C2_covers.2.2 100 100 0 (Emitter.mk 0 0 0) hd).mpr (by norm_num)
  · exact (claim_C2_covers.2.1 30 (Emitter.mk 0 5 5)).mpr
      (by norm_num [ACTIVATION_BAND, WAVE_SPEED_PX_PER_MS])

end EasyClaims

section Claim3

/-- Pruning keeps a list whose oldest emitter's ring is still in reach. -/
theorem pruneEmitters_cons_keep (m now : ℚ) (e : Emitter) (es : List Emitter)
    (h : (now - e.t0) * WAVE_SPEED_PX_PER_MS < m) :
    pruneEmitters m now (e :: es) = e :: es := by
  unfold pruneEmitters
  rw [List.findIdx_cons]
  simp [h]

/-- With no long press running and the long-press threshold not reached,
one simulation pass only prunes. -/
theorem simulate_idle (cfg : Config) (s : SimState)
    (h1 : s.isLongPress = false)
    (h2 : ¬ LONGPRESS_MS ≤ s.logicalNow - s.downAtMs) :
    simulateEmittersAndActivations cfg s =
      { s with emitters := pruneEmitters cfg.maxReachDist s.logicalNow s.emitters } := by
  unfold simulateEmittersAndActivations
  rw [decide_eq_false h2]
  simp only [Bool.and_false, Bool.false_eq_true, if_false, h1, Bool.false_and]

/-- The frame on which the long press fires: the gesture state is reset and
one emitter is spawned at the pointer, with `lastEmitMs` stamped to now (so
the periodic-emission branch does not fire on the same frame). -/
theorem simulate_start (cfg : Config) (s : SimState)
    (hd : s.isPointerDown = true) (hl : s.isLongPress = false)
    (h2 : LONGPRESS_MS ≤ s.logicalNow - s.downAtMs) :
    simulateEmittersAndActivations cfg s =
      { s with
        isLongPress := true
        startMs := fun _ _ => -1
        stopAtMs := fun _ _ => -1
        emitters := pruneEmitters cfg.maxReachDist s.logicalNow
          [Emitter.mk s.logicalNow s.lastPointer.1 s.lastPointer.2]
        lastEmitMs := s.logicalNow } := by
  have hno : ¬ EMIT_INTERVAL_MS ≤ s.logicalNow - s.logicalNow := by
    rw [sub_self]
    norm_num [EMIT_INTERVAL_MS]
  unfold simulateEmittersAndActivations spawnEmitter resetForNewGesture
  rw [decide_eq_true h2]
  simp only [hd, hl, Bool.not_false, Bool.and_true, Bool.true_and, if_true,
    List.nil_append, List.length_singleton, decide_eq_false hno, Bool.and_false,
    Bool.false_eq_true, if_false]
  rw [if_neg (by norm_num [MAX_EMITTERS])]

/-- A frame during an ongoing long press that comes less than
`EMIT_INTERVAL_MS` after the previous emission only prunes. -/
theorem simulate_hold_noemit (cfg : Config) (s : SimState)
    (hl : s.isLongPress = true)
    (h2 : ¬ EMIT_INTERVAL_MS ≤ s.logicalNow - s.lastEmitMs) :
    simulateEmittersAndActivations cfg s =
      { s with emitters := pruneEmitters cfg.maxReachDist s.logicalNow s.emitters } := by
  unfold simulateEmittersAndActivations
  simp only [hl, Bool.not_true, Bool.and_false, Bool.false_and, Bool.false_eq_true,
    if_false, Bool.true_and, decide_eq_false h2]

/-- A frame during an ongoing long press at least `EMIT_INTERVAL_MS` after
the previous emission appends one more emitter at the pointer. -/
theorem simulate_hold_emit (cfg : Config) (s : SimState)
    (hl : s.isLongPress = true)
    (h2 : EMIT_INTERVAL_MS ≤ s.logicalNow - s.lastEmitMs)
    (hcap : ¬ MAX_EMITTERS < s.emitters.length + 1) :
    simulateEmittersAndActivations cfg s =
      { s with
        emitters := pruneEmitters cfg.maxReachDist s.logicalNow
          (s.emitters ++ [Emitter.mk s.logicalNow s.lastPointer.1 s.lastPointer.2])
        lastEmitMs := s.logicalNow } := by
  unfold simulateEmittersAndActivations spawnEmitter
  simp only [hl, Bool.not_true, Bool.and_false, Bool.false_and, Bool.false_eq_true,
    if_false, Bool.true_and, decide_eq_true h2, if_true, List.length_append,
    List.length_singleton]
  rw [if_neg hcap]

/-- Pruning the empty collection yields the empty collection. -/
theorem pruneEmitters_nil (m now : ℚ) : pruneEmitters m now [] = [] := rfl

/-- Shape of a live (knob-inactive) frame: `draw` is `renderGrid` after one
simulation pass over a mid-state that is the input with the clock caught up
to the frame's wall reading and left running. -/
theorem draw_live (cfg : Config) (r : ℚ) (s : SimState) (hk : s.knobActive = false)
    (hc : s.clockPaused = false) (hn : s.logicalNow = s.lastReal) :
    ∃ sMid : SimState,
      draw cfg r s = renderGridState cfg (simulateEmittersAndActivations cfg sMid) ∧
      sMid.logicalNow = r ∧ sMid.lastReal = r ∧ sMid.clockPaused = false ∧
      sMid.knobActive = false ∧ sMid.isPointerDown = s.isPointerDown ∧
      sMid.isLongPress = s.isLongPress ∧ sMid.emitters = s.emitters ∧
      sMid.lastEmitMs = s.lastEmitMs ∧ sMid.downAtMs = s.downAtMs ∧
      sMid.lastPointer = s.lastPointer ∧ sMid.startMs = s.startMs ∧
      sMid.stopAtMs = s.stopAtMs ∧ sMid.holdMs = s.holdMs := by
  refine ⟨{ updateClock r s with clockPaused := false }, ?_, ?_, ?_, ?_, ?_, ?_, ?_,
    ?_, ?_, ?_, ?_, ?_, ?_, ?_⟩
  · unfold draw preRender
    dsimp only
    rw [if_neg (by simp [hk])]
  · simp [hc]
    linarith [hn]
  · simp
  · rfl
  · simp [hk]
  · simp
  · simp
  · simp
  · simp
  · simp
  · simp
  · simp
  · simp
  · simp

/-- One frame before the long-press threshold keeps the press phase. -/
theorem draw_press_waiting (cfg : Config) (px py r : ℚ) (s : SimState)
    (hP : PressPhase px py s) (hr : r < LONGPRESS_MS) :
    PressPhase px py (draw cfg r s) := by
  obtain ⟨hk, hc, hd, hl, he, hdown, hn, hlp⟩ := hP
  obtain ⟨sMid, hdraw, m1, m2, m3, m4, m5, m6, m7, m8, m9, m10, m11, m12, m13⟩ :=
    draw_live cfg r s hk hc hn
  have hsim := simulate_idle cfg sMid (by rw [m6, hl])
    (by rw [m1, m9, hdown, sub_zero]; exact not_le.mpr hr)
  rw [hdraw, hsim]
  refine ⟨?_, ?_, ?_, ?_, ?_, ?_, ?_, ?_⟩ <;>
    simp [m1, m2, m3, m4, m5, m6, m7, m8, m9, m10, hk, hd, hl, he, hdown, hlp,
      pruneEmitters_nil]

/-- The first frame at or past the long-press threshold spawns exactly one
emitter at the pointer position and enters the long-press phase. -/
theorem draw_longpress_trigger (cfg : Config) (px py r : ℚ) (s : SimState)
    (hP : PressPhase px py s) (hr : LONGPRESS_MS ≤ r) (hm : 0 < cfg.maxReachDist) :
    LongPressPhase px py r (draw cfg r s) := by
  obtain ⟨hk, hc, hd, hl, he, hdown, hn, hlp⟩ := hP
  obtain ⟨sMid, hdraw, m1, m2, m3, m4, m5, m6, m7, m8, m9, m10, m11, m12, m13⟩ :=
    draw_live cfg r s hk hc hn
  have hsim := simulate_start cfg sMid (by rw [m5, hd]) (by rw [m6, hl])
    (by rw [m1, m9, hdown, sub_zero]; exact hr)
  rw [hdraw, hsim]
  have hkeep : pruneEmitters cfg.maxReachDist r [Emitter.mk r px py] =
      [Emitter.mk r px py] :=
    pruneEmitters_cons_keep _ _ _ _ (by rw [sub_self, zero_mul]; exact hm)
  refine ⟨?_, ?_, ?_, ?_, ?_, ?_, ?_, ?_⟩ <;>
    simp [m1, m2, m3, m4, m5, m6, m10, hd, hlp, hkeep]

/-- A long-press frame observed less than `EMIT_INTERVAL_MS` after the last
emission changes nothing but the clock. -/
theorem draw_longpress_hold (cfg : Config) (px py t r : ℚ) (s : SimState)
    (hQ : LongPressPhase px py t s) (hr : r - t < EMIT_INTERVAL_MS)
    (hreach : EMIT_INTERVAL_MS * WAVE_SPEED_PX_PER_MS ≤ cfg.maxReachDist) :
    LongPressPhase px py t (draw cfg r s) := by
  obtain ⟨hk, hc, hd, hl, he, hle, hn, hlp⟩ := hQ
  obtain ⟨sMid, hdraw, m1, m2, m3, m4, m5, m6, m7, m8, m9, m10, m11, m12, m13⟩ :=
    draw_live cfg r s hk hc hn
  have hsim := simulate_hold_noemit cfg sMid (by rw [m6, hl])
    (by rw [m1, m8, hle]; exact not_le.mpr hr)
  rw [hdraw, hsim]
  have hWpos : (0 : ℚ) < WAVE_SPEED_PX_PER_MS := by norm_num [WAVE_SPEED_PX_PER_MS]
  have hkeep : pruneEmitters cfg.maxReachDist r [Emitter.mk t px py] =
      [Emitter.mk t px py] := by
    refine pruneEmitters_cons_keep _ _ _ _ ?_
    show (r - t) * WAVE_SPEED_PX_PER_MS < cfg.maxReachDist
    have h3 : (r - t) * WAVE_SPEED_PX_PER_MS < EMIT_INTERVAL_MS * WAVE_SPEED_PX_PER_MS :=
      mul_lt_mul_of_pos_right hr hWpos
    linarith
  refine ⟨?_, ?_, ?_, ?_, ?_, ?_, ?_, ?_⟩ <;>
    simp [m1, m2, m3, m4, m5, m6, m7, m8, m10, hd, hl, he, hle, hlp, hkeep]

/-- Folding `draw` distributes over list append. -/
theorem drawRun_append (cfg : Config) (a b : List ℚ) (s : SimState) :
    drawRun cfg (a ++ b) s = drawRun cfg b (drawRun cfg a s) := by
  induction a generalizing s with
  | nil => rfl
  | cons x xs ih =>
    show drawRun cfg (xs ++ b) (draw cfg x s) = _
    exact ih (draw cfg x s)

/-- The press phase survives any frames observed before the threshold. -/
theorem drawRun_press (cfg : Config) (px py : ℚ) (pre : List ℚ) (s : SimState)
    (hP : PressPhase px py s) (hpre : ∀ x ∈ pre, x < LONGPRESS_MS) :
    PressPhase px py (drawRun cfg pre s) := by
  revert hP hpre
  induction pre generalizing s with
  | nil =>
    intro hP _
    exact hP
  | cons x xs ih =>
    intro hP hpre
    show PressPhase px py (drawRun cfg xs (draw cfg x s))
    exact ih (draw cfg x s)
      (draw_press_waiting cfg px py x s hP (hpre x (List.mem_cons_self x xs)))
      (fun y hy => hpre y (List.mem_cons_of_mem x hy))

/-- The single-emitter long-press phase survives any frames observed before
`t + EMIT_INTERVAL_MS`. -/
theorem drawRun_longpress (cfg : Config) (px py t : ℚ) (post : List ℚ)
    (s : SimState) (hQ : LongPressPhase px py t s)
    (hpost : ∀ x ∈ post, x - t < EMIT_INTERVAL_MS)
    (hreach : EMIT_INTERVAL_MS * WAVE_SPEED_PX_PER_MS ≤ cfg.maxReachDist) :
    LongPressPhase px py t (drawRun cfg post s) := by
  revert hQ hpost
  induction post generalizing s with
  | nil =>
    intro hQ _
    exact hQ
  | cons x xs ih =>
    intro hQ hpost
    show LongPressPhase px py t (drawRun cfg xs (draw cfg x s))
    exact ih (draw cfg x s)
      (draw_longpress_hold cfg px py t x s hQ (hpost x (List.mem_cons_self x xs)) hreach)
      (fun y hy => hpost y (List.mem_cons_of_mem x hy))

/-- A long-press frame at least `EMIT_INTERVAL_MS` after the previous
emission appends a second emitter at the pointer. -/
theorem draw_longpress_emit (cfg : Config) (px py t r : ℚ) (s : SimState)
    (hQ : LongPressPhase px py t s) (hr : EMIT_INTERVAL_MS ≤ r - t)
    (hk1 : (r - t) * WAVE_SPEED_PX_PER_MS < cfg.maxReachDist) :
    (draw cfg r s).emitters = [Emitter.mk t px py, Emitter.mk r px py] := by
  obtain ⟨hk, hc, hd, hl, he, hle, hn, hlp⟩ := hQ
  obtain ⟨sMid, hdraw, m1, m2, m3, m4, m5, m6, m7, m8, m9, m10, m11, m12, m13⟩ :=
    draw_live cfg r s hk hc hn
  have hsim := simulate_hold_emit cfg sMid (by rw [m6, hl])
    (by rw [m1, m8, hle]; exact hr)
    (by rw [m7, he]; norm_num [MAX_EMITTERS])
  rw [hdraw, hsim]
  have hkeep : pruneEmitters cfg.maxReachDist r
      [Emitter.mk t px py, Emitter.mk r px py] =
      [Emitter.mk t px py, Emitter.mk r px py] :=
    pruneEmitters_cons_keep _ _ _ _ hk1
  simp [m1, m7, he, m10, hlp, hkeep]

/-- A mouse press on the freshly initialised sketch puts it in the press
phase (pointer down at the press position since logical time 0). -/
theorem mousePressed_initState (px py : ℚ) :
    PressPhase px py (mousePressed px py initState) := by
  unfold mousePressed
  rw [if_neg (by simp [initState])]
  exact ⟨rfl, rfl, rfl, rfl, rfl, rfl, rfl, rfl⟩

/-- An untriggered tile stays untriggered through one `renderGrid` pass
unless the wave field covers its centre. -/
theorem renderTileStep_untriggered (cfg : Config) (es : List Emitter)
    (now holdMs : ℚ) (isLP : Bool) (cx cy tStop : ℚ) :
    (renderTileStep cfg es now holdMs isLP cx cy (-1) tStop).newStart = -1 ∨
      hitByAnyEmitter now cx cy es = true := by
  cases hb : hitByAnyEmitter now cx cy es with
  | true => exact Or.inr rfl
  | false =>
    left
    unfold renderTileStep
    simp only [hb, Bool.and_false, Bool.false_eq_true, if_false]
    rw [if_pos (Or.inl trivial)]

/-- One simulation pass never sets a tile's `startMs`: an unset cell stays
unset (the long-press reset rewrites it to `-1` again). -/
theorem simulate_startMs_unset (cfg : Config) (s : SimState) (iy : Fin ROWS)
    (ix : Fin COLS) (h : s.startMs iy ix = -1) :
    (simulateEmittersAndActivations cfg s).startMs iy ix = -1 := by
  by_cases hA : (s.isPointerDown && !s.isLongPress &&
      decide (LONGPRESS_MS ≤ s.logicalNow - s.downAtMs)) = true
  · unfold simulateEmittersAndActivations spawnEmitter resetForNewGesture
    simp only [hA, if_true]
    split <;> rfl
  · rw [Bool.not_eq_true] at hA
    unfold simulateEmittersAndActivations spawnEmitter
    simp only [hA, Bool.false_eq_true, if_false]
    split <;> exact h

/-- C3's grid clause at the `draw` level: a tile whose `startMs` is unset is
still unset after a frame unless the wave field (as it stands when
`renderGrid` samples it) covers the tile's centre. -/
theorem draw_untriggered (cfg : Config) (r : ℚ) (s : SimState)
    (iy : Fin ROWS) (ix : Fin COLS) (h : s.startMs iy ix = -1) :
    (draw cfg r s).startMs iy ix = -1 ∨
      hitByAnyEmitter (preRender cfg r s).logicalNow
        (cfg.tileCenter iy ix).1 (cfg.tileCenter iy ix).2
        (preRender cfg r s).emitters = true := by
  have hpre : (preRender cfg r s).startMs iy ix = -1 := by
    unfold preRender
    dsimp only
    split
    · simpa using h
    · apply simulate_startMs_unset
      simpa using h
  have hstep := renderTileStep_untriggered cfg (preRender cfg r s).emitters
    (preRender cfg r s).logicalNow (preRender cfg r s).holdMs
    (preRender cfg r s).isLongPress (cfg.tileCenter iy ix).1
    (cfg.tileCenter iy ix).2 ((preRender cfg r s).stopAtMs iy ix)
  show (renderGridState cfg (preRender cfg r s)).startMs iy ix = -1 ∨ _
  rw [renderGridState_startMs, hpre]
  exact hstep

/-- C3 counterexample: the claim's 400 ms scenario is false as stated.  With
frames observed at 350 ms and 395 ms — both within a 400 ms motionless hold —
the code spawns a second emitter on the 395 ms frame (45 ms ≥
`EMIT_INTERVAL_MS` after the first), so the press produces two emitters, not
exactly one. -/
theorem claim_C3_counterexample :
    (drawRun cfgW [350, 395] (mousePressed 500 500 initState)).emitters.length = 2 ∧
      (350 : ℚ) ≤ 400 ∧ (395 : ℚ) ≤ 400 ∧
      ¬ (drawRun cfgW [350, 395] (mousePressed 500 500 initState)).emitters.length = 1 := by
  have hP := mousePressed_initState 500 500
  have h1 := draw_longpress_trigger cfgW 500 500 350 (mousePressed 500 500 initState)
    hP (by norm_num [LONGPRESS_MS]) (by norm_num [cfgW])
  have h2 := draw_longpress_emit cfgW 500 500 350 395
    (draw cfgW 350 (mousePressed 500 500 initState)) h1
    (by norm_num [EMIT_INTERVAL_MS])
    (by norm_num [WAVE_SPEED_PX_PER_MS, cfgW])
  have hrun : drawRun cfgW [350, 395] (mousePressed 500 500 initState) =
      draw cfgW 395 (draw cfgW 350 (mousePressed 500 500 initState)) := rfl
  rw [hrun, h2]
  norm_num

/-- C3 (amended): with `LONGPRESS_MS = 350` and `EMIT_INTERVAL_MS = 40`, a
press at `(px, py)` held without moving, all of whose frames are observed
before `LONGPRESS_MS + EMIT_INTERVAL_MS` (= 390 ms) of logical time with at
least one frame at or past `LONGPRESS_MS`, produces exactly one emitter,
spawned at the press position at the first such frame's time (a 400 ms hold
can instead produce two — see the counterexample); and the tile grid is
unchanged until a wave front covers a tile centre: an untriggered tile stays
untriggered through any frame whose wave field does not cover its centre. -/
theorem claim_C3_one_emitter (cfg : Config) (px py t : ℚ) (pre post : List ℚ)
    (hpre : ∀ x ∈ pre, x < LONGPRESS_MS)
    (ht : LONGPRESS_MS ≤ t)
    (hall : ∀ x ∈ pre ++ t :: post, x < LONGPRESS_MS + EMIT_INTERVAL_MS)
    (hreach : EMIT_INTERVAL_MS * WAVE_SPEED_PX_PER_MS ≤ cfg.maxReachDist) :
    (drawRun cfg (pre ++ t :: post) (mousePressed px py initState)).emitters =
      [Emitter.mk t px py] ∧
    (∀ (r : ℚ) (s : SimState) (iy : Fin ROWS) (ix : Fin COLS),
      s.startMs iy ix = -1 →
      ((draw cfg r s).startMs iy ix = -1 ∨
        hitByAnyEmitter (preRender cfg r s).logicalNow
          (cfg.tileCenter iy ix).1 (cfg.tileCenter iy ix).2
          (preRender cfg r s).emitters = true)) := by
  constructor
  · rw [drawRun_append]
    have hP := drawRun_press cfg px py pre (mousePressed px py initState)
      (mousePressed_initState px py) hpre
    have hm : 0 < cfg.maxReachDist := by
      have h0 : (0 : ℚ) < EMIT_INTERVAL_MS * WAVE_SPEED_PX_PER_MS := by
        norm_num [EMIT_INTERVAL_MS, WAVE_SPEED_PX_PER_MS]
      linarith
    have hQ := draw_longpress_trigger cfg px py t
      (drawRun cfg pre (mousePressed px py initState)) hP ht hm
    have ht40 : ∀ x ∈ post, x - t < EMIT_INTERVAL_MS := by
      intro x hx
      have h1 := hall x (List.mem_append_right pre (List.mem_cons_of_mem t hx))
      linarith
    have hQ2 := drawRun_longpress cfg px py t post
      (draw cfg t (drawRun cfg pre (mousePressed px py initState))) hQ ht40 hreach
    exact hQ2.2.2.2.2.1
  · intro r s iy ix h
    exact draw_untriggered cfg r s iy ix h

/-- C3 witness for the amended claim: frames at 340, 360 and 380 ms (all
before 390 ms, one past 350 ms) produce exactly the single emitter spawned at
360 ms at the press position. -/
theorem claim_C3_witness :
    (drawRun cfgW ([340] ++ 360 :: [380]) (mousePressed 500 500 initState)).emitters =
      [Emitter.mk 360 500 500] :=
  (claim_C3_one_emitter cfgW 500 500 360 [340] [380]
    (by
      intro x hx
      simp only [List.mem_singleton] at hx
      rw [hx]
      norm_num [LONGPRESS_MS])
    (by norm_num [LONGPRESS_MS])
    (by
      intro x hx
      simp only [List.singleton_append, List.mem_cons, List.mem_singleton,
        List.not_mem_nil, or_false] at hx
      rcases hx with h | h | h <;> rw [h] <;>
        norm_num [LONGPRESS_MS, EMIT_INTERVAL_MS])
    (by norm_num [EMIT_INTERVAL_MS, WAVE_SPEED_PX_PER_MS, cfgW])).1

end Claim3

section Claim4

/-- While `isLongPress` holds, one tile pass either keeps the tile's
`startMs` or stamps it with `now` (trigger); it never runs the stop logic. -/
theorem renderTileStep_longpress_newStart (cfg : Config) (es : List Emitter)
    (now holdMs cx cy t0 tStop : ℚ) :
    (renderTileStep cfg es now holdMs true cx cy t0 tStop).newStart = t0 ∨
    (renderTileStep cfg es now holdMs true cx cy t0 tStop).newStart = now := by
  unfold renderTileStep
  by_cases hcond : (true && decide (t0 < 0) && hitByAnyEmitter now cx cy es) = true
  · right
    rw [hcond]
    rw [if_pos rfl]
    dsimp only
    split
    · rfl
    · rw [if_pos rfl]
  · left
    rw [Bool.not_eq_true] at hcond
    rw [hcond]
    rw [if_neg Bool.false_ne_true]
    dsimp only
    split
    · rfl
    · rw [if_pos rfl]

/-- While `isLongPress` holds with a nonnegative clock, a tile that does not
carry the DONE sentinel cannot acquire it in one pass. -/
theorem renderTileStep_longpress_ne (cfg : Config) (es : List Emitter)
    (now holdMs cx cy t0 tStop : ℚ) (hnow : 0 ≤ now) (h : t0 ≠ -2) :
    (renderTileStep cfg es now holdMs true cx cy t0 tStop).newStart ≠ -2 := by
  rcases renderTileStep_longpress_newStart cfg es now holdMs cx cy t0 tStop with h1 | h1 <;>
    rw [h1]
  · exact h
  · intro hc
    rw [hc] at hnow
    norm_num at hnow

/-- After release, a DONE tile just draws the rest square and keeps its
sentinel. -/
theorem renderTileStep_done_rest (cfg : Config) (es : List Emitter)
    (now holdMs cx cy tStop : ℚ) :
    (renderTileStep cfg es now holdMs false cx cy (-2) tStop).newStart = -2 := by
  unfold renderTileStep
  rw [if_neg (by simp :
    ¬ ((false && decide ((-2 : ℚ) < 0) && hitByAnyEmitter now cx cy es) = true))]
  dsimp only
  rw [if_pos (Or.inr rfl)]

/-- The grid pass preserves the no-DONE-while-long-pressing property when
the clock is nonnegative. -/
theorem renderGridState_tileInv (cfg : Config) (s : SimState)
    (hnow : 0 ≤ s.logicalNow)
    (h : s.isLongPress = true → ∀ (iy : Fin ROWS) (ix : Fin COLS),
      s.startMs iy ix ≠ -2) :
    (renderGridState cfg s).isLongPress = true →
      ∀ (iy : Fin ROWS) (ix : Fin COLS),
        (renderGridState cfg s).startMs iy ix ≠ -2 := by
  intro hl iy ix
  rw [renderGridState_isLongPress] at hl
  rw [renderGridState_startMs, hl]
  exact renderTileStep_longpress_ne cfg s.emitters s.logicalNow s.holdMs
    (cfg.tileCenter iy ix).1 (cfg.tileCenter iy ix).2 (s.startMs iy ix)
    (s.stopAtMs iy ix) hnow (h hl iy ix)

/-- One simulation pass either leaves the grid and `isLongPress` alone or
(when the long-press guard fires) resets the grid to all `-1` and raises
`isLongPress`. -/
theorem simulate_tileFacts (cfg : Config) (s : SimState) :
    ((simulateEmittersAndActivations cfg s).startMs = s.startMs ∧
     (simulateEmittersAndActivations cfg s).stopAtMs = s.stopAtMs ∧
     (simulateEmittersAndActivations cfg s).isLongPress = s.isLongPress) ∨
    ((simulateEmittersAndActivations cfg s).startMs = (fun _ _ => -1) ∧
     (simulateEmittersAndActivations cfg s).isLongPress = true ∧
     (s.isPointerDown && !s.isLongPress &&
       decide (LONGPRESS_MS ≤ s.logicalNow - s.downAtMs)) = true) := by
  by_cases hA : (s.isPointerDown && !s.isLongPress &&
      decide (LONGPRESS_MS ≤ s.logicalNow - s.downAtMs)) = true
  · right
    unfold simulateEmittersAndActivations spawnEmitter resetForNewGesture
    simp only [hA, if_true]
    refine ⟨?_, ?_, trivial⟩
    all_goals split <;> rfl
  · left
    rw [Bool.not_eq_true] at hA
    unfold simulateEmittersAndActivations spawnEmitter
    simp only [hA, Bool.false_eq_true, if_false]
    refine ⟨?_, ?_, ?_⟩ <;> (split <;> rfl)

/-- Decomposition of one frame: `draw` is `renderGrid` over a mid-state that
is the clock-updated input (knob branch), or over one simulation pass of it
(live branch); either way the mid-state keeps the input's gesture fields. -/
theorem draw_split (cfg : Config) (r : ℚ) (s : SimState) :
    ∃ sMid : SimState,
      sMid.logicalNow = (updateClock r s).logicalNow ∧
      sMid.startMs = s.startMs ∧ sMid.stopAtMs = s.stopAtMs ∧
      sMid.isLongPress = s.isLongPress ∧ sMid.isPointerDown = s.isPointerDown ∧
      sMid.downAtMs = s.downAtMs ∧
      ((s.knobActive = true ∧ draw cfg r s = renderGridState cfg sMid) ∨
       (s.knobActive = false ∧
         draw cfg r s =
           renderGridState cfg (simulateEmittersAndActivations cfg sMid))) := by
  cases hk : s.knobActive
  · refine ⟨{ updateClock r s with clockPaused := false }, by simp, by simp, by simp,
      by simp, by simp, by simp, Or.inr ⟨rfl, ?_⟩⟩
    unfold draw preRender
    dsimp only
    rw [if_neg (by simp [hk])]
  · refine ⟨{ updateClock r s with clockPaused := true }, by simp, by simp, by simp,
      by simp, by simp, by simp, Or.inl ⟨rfl, ?_⟩⟩
    unfold draw preRender
    dsimp only
    rw [if_pos (by simp [hk])]

/-- Input handlers never touch the grid or the clock, and can only clear
(never raise) `isLongPress`. -/
theorem handler_gestureFacts (cfg : Config) (e : Event) (s : SimState)
    (he : ∀ q : ℚ, e ≠ Event.frame q) :
    (handleEvent cfg e s).startMs = s.startMs ∧
    (handleEvent cfg e s).logicalNow = s.logicalNow ∧
    ((handleEvent cfg e s).isLongPress = false ∨
      (handleEvent cfg e s).isLongPress = s.isLongPress) := by
  cases e with
  | frame q => exact absurd rfl (he q)
  | mousePress mx my =>
    simp only [handleEvent]
    unfold mousePressed
    split
    · exact ⟨rfl, rfl, Or.inr rfl⟩
    · exact ⟨rfl, rfl, Or.inl rfl⟩
  | mouseDrag mx my => exact ⟨rfl, rfl, Or.inr rfl⟩
  | mouseMove mx my =>
    simp only [handleEvent]
    unfold mouseMoved
    split
    · exact ⟨rfl, rfl, Or.inr rfl⟩
    · exact ⟨rfl, rfl, Or.inr rfl⟩
  | mouseRelease => exact ⟨rfl, rfl, Or.inl rfl⟩
  | touchStart touches mx my =>
    simp only [handleEvent]
    unfold touchStarted enterKnobMode
    split
    · exact ⟨rfl, rfl, Or.inr rfl⟩
    · split
      · exact ⟨rfl, rfl, Or.inr rfl⟩
      · exact ⟨rfl, rfl, Or.inl rfl⟩
  | touchMove touches =>
    simp only [handleEvent]
    unfold touchMoved updateKnobWithPinch
    split
    · exact ⟨rfl, rfl, Or.inr rfl⟩
    · split
      · exact ⟨rfl, rfl, Or.inr rfl⟩
      · exact ⟨rfl, rfl, Or.inr rfl⟩
  | touchEnd touches =>
    simp only [handleEvent]
    unfold touchEnded
    split
    · exact ⟨rfl, rfl, Or.inl rfl⟩
    · exact ⟨rfl, rfl, Or.inr rfl⟩

/-- C4: the DONE sentinel is terminal within a gesture.  The invariant
"while `isLongPress` holds no tile carries `-2`" (with clock nonnegativity,
given monotone wall time) is preserved by every input handler and every
frame — exactly what keeps the trigger guard `startMs < 0`, which the DONE
sentinel `-2` also satisfies, from ever re-triggering a finished tile.
Moreover a tile holding `-2` either still holds `-2` after an arbitrary
event, or that event was a frame on which a new gesture's long press began,
whose reset returns the tile to `-1` (possibly re-triggering it immediately
at the new gesture's clock reading). -/
theorem claim_C4_done_terminal (cfg : Config) (e : Event) (s : SimState)
    (hInv : GestureInv s)
    (hmono : ∀ r : ℚ, e = Event.frame r → s.lastReal ≤ r) :
    GestureInv (handleEvent cfg e s) ∧
    (∀ (iy : Fin ROWS) (ix : Fin COLS), s.startMs iy ix = -2 →
      ((handleEvent cfg e s).startMs iy ix = -2 ∨
        (∃ r : ℚ, e = Event.frame r ∧ newGestureBegins r s ∧
          ((handleEvent cfg e s).startMs iy ix = -1 ∨
            (handleEvent cfg e s).startMs iy ix = (updateClock r s).logicalNow)))) := by
  obtain ⟨hn0, hTile⟩ := hInv
  by_cases hframe : ∃ r : ℚ, e = Event.frame r
  case neg =>
    have he : ∀ q : ℚ, e ≠ Event.frame q := fun q hq => hframe ⟨q, hq⟩
    obtain ⟨hst, hlog, hlp⟩ := handler_gestureFacts cfg e s he
    constructor
    · refine ⟨by rw [hlog]; exact hn0, ?_⟩
      intro hl iy ix
      rw [hst]
      rcases hlp with h | h
      · rw [hl] at h
        exact Bool.noConfusion h
      · rw [h] at hl
        exact hTile hl iy ix
    · intro iy ix hdone
      left
      rw [hst]
      exact hdone
  case pos =>
    obtain ⟨r, rfl⟩ := hframe
    have hlr : s.lastReal ≤ r := hmono r rfl
    have hnow2 : 0 ≤ (updateClock r s).logicalNow := by
      rw [updateClock_logicalNow]
      split
      · exact hn0
      · linarith
    show GestureInv (draw cfg r s) ∧ _
    obtain ⟨sMid, n1, n2, n3, n4, n5, n6, hbr⟩ := draw_split cfg r s
    rcases hbr with ⟨hk, hdraw⟩ | ⟨hk, hdraw⟩
    · constructor
      · constructor
        · rw [hdraw, renderGridState_logicalNow, n1]
          exact hnow2
        · rw [hdraw]
          refine renderGridState_tileInv cfg sMid (by rw [n1]; exact hnow2) ?_
          intro hl iy ix
          rw [n2]
          rw [n4] at hl
          exact hTile hl iy ix
      · intro iy ix hdone
        left
        have hlf : s.isLongPress = false := by
          cases hb : s.isLongPress
          · rfl
          · exact absurd hdone (hTile hb iy ix)
        show (draw cfg r s).startMs iy ix = -2
        rw [hdraw, renderGridState_startMs, n4, hlf, n2, hdone]
        exact renderTileStep_done_rest cfg sMid.emitters sMid.logicalNow sMid.holdMs
          (cfg.tileCenter iy ix).1 (cfg.tileCenter iy ix).2 (sMid.stopAtMs iy ix)
    · have hsimf := simulate_fields cfg sMid
      rcases simulate_tileFacts cfg sMid with ⟨t1, t2, t3⟩ | ⟨t1, t2, t3⟩
      · constructor
        · constructor
          · rw [hdraw, renderGridState_logicalNow, hsimf.2.2.1, n1]
            exact hnow2
          · rw [hdraw]
            refine renderGridState_tileInv cfg _ (by rw [hsimf.2.2.1, n1]; exact hnow2) ?_
            intro hl iy ix
            rw [t1, n2]
            rw [t3, n4] at hl
            exact hTile hl iy ix
        · intro iy ix hdone
          left
          have hlf : s.isLongPress = false := by
            cases hb : s.isLongPress
            · rfl
            · exact absurd hdone (hTile hb iy ix)
          show (draw cfg r s).startMs iy ix = -2
          rw [hdraw, renderGridState_startMs, t1, n2, hdone, t3, n4, hlf]
          exact renderTileStep_done_rest cfg _ _ _ _ _ _
      · have ht3 := t3
        rw [Bool.and_eq_true, Bool.and_eq_true] at ht3
        obtain ⟨⟨hp, hnl⟩, hdec⟩ := ht3
        have hnl2 : sMid.isLongPress = false := by
          revert hnl
          cases sMid.isLongPress <;> simp
        have hdec2 := of_decide_eq_true hdec
        have hNGB : newGestureBegins r s := by
          refine ⟨hk, ?_, ?_, ?_⟩
          · rw [← n5]
            exact hp
          · rw [← n4]
            exact hnl2
          · rw [← n1, ← n6]
            exact hdec2
        constructor
        · constructor
          · rw [hdraw, renderGridState_logicalNow, hsimf.2.2.1, n1]
            exact hnow2
          · rw [hdraw]
            refine renderGridState_tileInv cfg _ (by rw [hsimf.2.2.1, n1]; exact hnow2) ?_
            intro _ iy ix
            rw [t1]
            norm_num
        · intro iy ix hdone
          right
          refine ⟨r, rfl, hNGB, ?_⟩
          show (draw cfg r s).startMs iy ix = -1 ∨
            (draw cfg r s).startMs iy ix = (updateClock r s).logicalNow
          rw [hdraw, renderGridState_startMs, t1, t2, hsimf.2.2.1, n1]
          exact renderTileStep_longpress_newStart cfg
            (simulateEmittersAndActivations cfg sMid).emitters
            (updateClock r s).logicalNow
            (simulateEmittersAndActivations cfg sMid).holdMs
            (cfg.tileCenter iy ix).1 (cfg.tileCenter iy ix).2 (-1)
            ((simulateEmittersAndActivations cfg sMid).stopAtMs iy ix)

/-- C4 witness: one frame on the freshly initialised sketch preserves the
invariant, and (vacuously at this state) the DONE dichotomy. -/
theorem claim_C4_witness :
    GestureInv (handleEvent cfgW (Event.frame 10) initState) ∧
    (∀ (iy : Fin ROWS) (ix : Fin COLS), initState.startMs iy ix = -2 →
      ((handleEvent cfgW (Event.frame 10) initState).startMs iy ix = -2 ∨
        (∃ r : ℚ, Event.frame 10 = Event.frame r ∧ newGestureBegins r initState ∧
          ((handleEvent cfgW (Event.frame 10) initState).startMs iy ix = -1 ∨
            (handleEvent cfgW (Event.frame 10) initState).startMs iy ix =
              (updateClock r initState).logicalNow)))) := by
  refine claim_C4_done_terminal cfgW (Event.frame 10) initState ⟨?_, ?_⟩ ?_
  · norm_num [initState]
  · intro h
    exact absurd h (by norm_num [initState])
  · intro r h
    cases h
    norm_num [initState]

end Claim4

end RippleGrid
